import Mathlib

/-!
# Verification of the group-image-cropper core (src/App.tsx)

A shallow embedding of the ingestion pipeline and the crop coordinate /
state model of `src/App.tsx`, with theorems checking the natural-language
specification against the code.

Conventions:
* JavaScript numbers are modelled as rationals (`ℚ`); `Math.round` is
  `jsRound` below (`Math.round x = ⌊x + 1/2⌋` for every finite JS number).
* Machine strings are Lean `String`s; `String.prototype.toLowerCase` is
  modelled by mapping `Char.toLower` (coincides on ASCII, which is all the
  accepted extension lists contain).
* External capabilities (image decoding, the cropper surface, the save
  dialog) are modelled as oracle inputs: each candidate file carries its
  decode outcome, and the crop/cancel handlers take the cropper reads and
  the save outcome as parameters.
-/

namespace GroupImageCropper

/-- JS `Math.round` on a finite number: round half toward +∞. -/
def jsRound (q : ℚ) : ℤ := ⌊q + 1/2⌋

/-- Source `convertToDisplaySize` (App.tsx lines 255-261):
`Math.round((actualSize / originalSize) * displaySize)`. -/
def convertToDisplaySize (actualSize originalSize displaySize : ℚ) : ℤ :=
  jsRound (actualSize / originalSize * displaySize)

/-- Source `convertToActualSize` (App.tsx lines 263-269):
`Math.round((displaySize / containerSize) * originalSize)`. -/
def convertToActualSize (displaySize originalSize containerSize : ℚ) : ℤ :=
  jsRound (displaySize / containerSize * originalSize)

/-- C3 counterexample: the round-trip drift bound "±1 for all positive `O, C`
and `v` in range" fails at `O = 1000`, `C = 10`, `v = 49` (an in-range value):
`toDisplay(49) = round(0.49) = 0`, `toActual(0) = 0`, so the round trip loses
49 units, not at most 1. -/
theorem roundTrip_not_within_one_at_1000_10_49 :
    ¬ |convertToActualSize ((convertToDisplaySize 49 1000 10 : ℤ) : ℚ) 1000 10 - 49| ≤ 1 := by
  have h1 : convertToDisplaySize 49 1000 10 = 0 := by
    norm_num [convertToDisplaySize, jsRound]
  rw [h1]
  norm_num [convertToActualSize, jsRound]

/-- C3 (amended): one round trip `toActual(toDisplay(v, O, C), O, C)` differs
from the integer `v` by at most 1 whenever `O, C > 0` and the original extent
is at most twice the container extent (`O ≤ 2C`); without that proviso the
drift can reach `O/(2C)` display-rounding units. -/
theorem roundTrip_within_one (O C : ℚ) (v : ℤ) (hO : 0 < O) (hC : 0 < C)
    (h2 : O ≤ 2 * C) :
    |convertToActualSize ((convertToDisplaySize (v : ℚ) O C : ℤ) : ℚ) O C - v| ≤ 1 := by
  have hOne : O ≠ 0 := ne_of_gt hO
  have hCne : C ≠ 0 := ne_of_gt hC
  set d : ℤ := convertToDisplaySize (v : ℚ) O C with hdDef
  have hd1 : (d : ℚ) ≤ (v : ℚ) / O * C + 1 / 2 := Int.floor_le _
  have hd2 : (v : ℚ) / O * C + 1 / 2 - 1 < (d : ℚ) := Int.sub_one_lt_floor _
  -- clear the division by O
  have key1 : (d : ℚ) * O ≤ (v : ℚ) * C + O / 2 := by
    have h := mul_le_mul_of_nonneg_right hd1 hO.le
    have heq : ((v : ℚ) / O * C + 1 / 2) * O = (v : ℚ) * C + O / 2 := by
      field_simp
      ring
    linarith [heq ▸ h]
  have key2 : (v : ℚ) * C - O / 2 < (d : ℚ) * O := by
    have h := mul_lt_mul_of_pos_right hd2 hO
    have heq : ((v : ℚ) / O * C + 1 / 2 - 1) * O = (v : ℚ) * C - O / 2 := by
      field_simp
      ring
    linarith [heq ▸ h]
  -- bound the second rounding
  have hup : convertToActualSize (d : ℚ) O C < v + 2 := by
    rw [convertToActualSize, jsRound, Int.floor_lt]
    push_cast
    rw [div_mul_eq_mul_div]
    have hmid : (d : ℚ) * O / C < (v : ℚ) + 3 / 2 := by
      rw [div_lt_iff₀ hC]
      nlinarith
    linarith
  have hlo : v - 1 ≤ convertToActualSize (d : ℚ) O C := by
    rw [convertToActualSize, jsRound, Int.le_floor]
    push_cast
    rw [div_mul_eq_mul_div]
    have hmid : (v : ℚ) - 3 / 2 ≤ (d : ℚ) * O / C := by
      rw [le_div_iff₀ hC]
      nlinarith
    linarith
  rw [abs_le]
  omega

/-- Witness for `roundTrip_within_one` at `O = 3`, `C = 2`, `v = 2`. -/
theorem roundTrip_within_one_case :
    (0 : ℚ) < 3 ∧ (0 : ℚ) < 2 ∧ (3 : ℚ) ≤ 2 * 2 ∧
      |convertToActualSize ((convertToDisplaySize ((2 : ℤ) : ℚ) 3 2 : ℤ) : ℚ) 3 2 - 2| ≤ 1 :=
  ⟨by norm_num, by norm_num, by norm_num,
    roundTrip_within_one 3 2 2 (by norm_num) (by norm_num) (by norm_num)⟩

/-! ## File names and the accepted-type table -/

/-- JS `String.prototype.lastIndexOf(c)`: the index of the last occurrence of
`c`, or `-1` when `c` does not occur. -/
def jsLastIndexOf (s : String) (c : Char) : ℤ :=
  let l := s.toList
  if c ∈ l then (l.length : ℤ) - 1 - (l.reverse.indexOf c : ℤ) else -1

/-- Source `getFileExtension` (App.tsx lines 246-248):
`filename.slice(((filename.lastIndexOf('.') - 1) >>> 0) + 2).toLowerCase()`.
`>>> 0` reinterprets the 32-bit value as unsigned, i.e. reduces mod `2^32`;
when there is no `'.'` the start index becomes `2^32`, past the end of any
JS string indexable this way, so the slice is empty. -/
def getFileExtension (filename : String) : String :=
  let start : ℕ := ((jsLastIndexOf filename '.' - 1).emod (2 ^ 32)).toNat + 2
  String.mk ((filename.toList.drop start).map Char.toLower)

example : getFileExtension "a.PNG" = "png" := by decide
example : getFileExtension "photo" = "" := by decide
example : getFileExtension "archive.tar.gz" = "gz" := by decide

/-- Source `ACCEPTED_TYPES` (App.tsx lines 60-65), as a partial map from declared
content type to the accepted extension list; `none` models a key that is
absent from the record. -/
def ACCEPTED_TYPES (t : String) : Option (List String) :=
  if t = "image/jpeg" then some [".jpg", ".jpeg"]
  else if t = "image/png" then some [".png"]
  else if t = "image/gif" then some [".gif"]
  else if t = "image/webp" then some [".webp"]
  else none

/-- Source `MAX_FILE_SIZE` (App.tsx line 77): `10 * 1024 * 1024` bytes. -/
def MAX_FILE_SIZE : ℕ := 10 * 1024 * 1024

/-! ## Aspect-ratio selector conversions -/

/-- The decoded image's natural dimensions (`originalDimensions` state). -/
structure Dims where
  width : ℚ
  height : ℚ
deriving DecidableEq

/-- Source `getAspectRatioFromSelection` (App.tsx lines 569-581): selector string to
numeric ratio; `'original'` with no dimensions loaded gives 0. The selector
values are the `TEXT.MODAL.ASPECT_RATIOS` constants `'free'`, `'original'`,
`'1:1'`. -/
def getAspectRatioFromSelection (value : String) (originalDimensions : Option Dims) : ℚ :=
  if value = "original" then
    match originalDimensions with
    | some d => d.width / d.height
    | none => 0
  else if value = "1:1" then 1
  else 0

/-- Source function of App.tsx lines 583-596 (its name there appends
"AspectRatio" to `getSelectionFrom`): numeric ratio back to selector, with
exact match to 1 for `'1:1'` and absolute tolerance `0.0001` for
`'original'`. -/
def getSelectionFromAspect (ratio : ℚ) (originalDimensions : Option Dims) : String :=
  if ratio = 1 then "1:1"
  else
    match originalDimensions with
    | some d => if |ratio - d.width / d.height| < 1 / 10000 then "original" else "free"
    | none => "free"

/-- C9: for valid dimensions (both extents in `[16, 10000]`), the selector →
ratio → selector round trip is the identity on the `free` and square (`1:1`)
selectors: `free` maps to ratio 0, which is farther than `1e-4` from any
valid original ratio (at least `16/10000`), and square maps to ratio 1, which
the reverse map matches exactly first. -/
theorem selector_roundTrip_free_square (d : Dims)
    (hw1 : 16 ≤ d.width) (hw2 : d.width ≤ 10000)
    (hh1 : 16 ≤ d.height) (hh2 : d.height ≤ 10000) :
    getSelectionFromAspect (getAspectRatioFromSelection "free" (some d)) (some d) = "free" ∧
      getSelectionFromAspect (getAspectRatioFromSelection "1:1" (some d)) (some d) = "1:1" := by
  have hhpos : (0 : ℚ) < d.height := by linarith
  constructor
  · have hfree : getAspectRatioFromSelection "free" (some d) = 0 := by
      simp [getAspectRatioFromSelection]
    rw [hfree, getSelectionFromAspect]
    have hratio : (1 : ℚ) / 10000 ≤ d.width / d.height := by
      rw [div_le_div_iff₀ (by norm_num) hhpos]
      nlinarith
    have habs : ¬ |(0 : ℚ) - d.width / d.height| < 1 / 10000 := by
      rw [zero_sub, abs_neg, abs_of_nonneg (by positivity)]
      linarith
    rw [if_neg (by norm_num : ¬ (0 : ℚ) = 1)]
    show (if |(0 : ℚ) - d.width / d.height| < 1 / 10000 then "original" else "free") = "free"
    rw [if_neg habs]
  · have hsq : getAspectRatioFromSelection "1:1" (some d) = 1 := by
      simp [getAspectRatioFromSelection]
    rw [hsq, getSelectionFromAspect]
    simp

/-- Witness for `selector_roundTrip_free_square` at dimensions 640 × 480. -/
theorem selector_roundTrip_free_square_case :
    ((16 : ℚ) ≤ 640 ∧ (640 : ℚ) ≤ 10000 ∧ (16 : ℚ) ≤ 480 ∧ (480 : ℚ) ≤ 10000) ∧
      (getSelectionFromAspect
          (getAspectRatioFromSelection "free" (some ⟨640, 480⟩)) (some ⟨640, 480⟩) = "free" ∧
        getSelectionFromAspect
          (getAspectRatioFromSelection "1:1" (some ⟨640, 480⟩)) (some ⟨640, 480⟩) = "1:1") :=
  ⟨⟨by norm_num, by norm_num, by norm_num, by norm_num⟩,
    selector_roundTrip_free_square ⟨640, 480⟩
      (by norm_num) (by norm_num) (by norm_num) (by norm_num)⟩

/-! ## Ingestion pipeline (`processFiles`, App.tsx lines 689-831)

The asynchronous parts are modelled as data: `validateImage`'s decode outcome
is carried on each candidate file (the decode of an untrusted blob is an
external capability), and `Date.now()` at admission time is a parameter.
The `isProcessing` busy flag and the debounce timer gate *whether* the batch
body runs; the model below is the batch body itself (the `setTimeout`
callback), acting on the `images` list captured when it was scheduled. -/

/-- Outcome of `validateImage` (App.tsx lines 624-687) for one file:
decode + dimension bounds + 1×1 draw-and-read probe. -/
inductive Validation
  | valid
  | tooSmall
  | tooLarge
  | corrupt
deriving DecidableEq

/-- One candidate file of a batch: the metadata `processFiles` reads, plus
the oracle decode outcome. -/
structure FileCand where
  name : String
  type : String
  size : ℕ
  validation : Validation
deriving DecidableEq

/-- An entry of `cropHistory`: the integer-rounded crop rectangle. -/
structure CropDimensionsZ where
  x : ℤ
  y : ℤ
  width : ℤ
  height : ℤ
deriving DecidableEq

/-- Source `CropSettings`: a crop rectangle plus aspect ratio, in JS numbers.
The source field `aspectRatio` is named `aspect` here. -/
structure CropSettingsQ where
  x : ℚ
  y : ℚ
  width : ℚ
  height : ℚ
  aspect : ℚ
deriving DecidableEq

/-- Cropper `CanvasData`: the crop surface's canvas geometry. -/
structure CanvasData where
  left : ℚ
  top : ℚ
  width : ℚ
  height : ℚ
  naturalWidth : ℚ
  naturalHeight : ℚ
deriving DecidableEq

/-- Source `ImageData` (App.tsx lines 29-38), the per-image session record. The
`url`/`objectUrl` resource handles are omitted (opaque browser resources);
`id` is `` `${file.name}-${Date.now()}` ``. -/
structure ImageRec where
  id : String
  file : FileCand
  cropped : Bool
  cropHistory : List CropDimensionsZ
  cropSettings : Option CropSettingsQ
  canvasData : Option CanvasData
deriving DecidableEq

/-- The record `processFiles` appends for an admitted file. -/
def mkNewImage (f : FileCand) (now : ℕ) : ImageRec :=
  { id := f.name ++ "-" ++ toString now
    file := f
    cropped := false
    cropHistory := []
    cropSettings := none
    canvasData := none }

/-- A user-facing notice, by kind and payload (the `createToastMessage`
cases, App.tsx lines 469-559). `limitAdded` is the partial "N added /
M ignored" notice. -/
inductive Msg
  | limitAtCapacity (count : ℕ)
  | limitAdded (added ignored : ℕ)
  | duplicates (count : ℕ)
  | invalidType (count : ℕ)
  | fileSize (filename : String)
  | mimeMismatch (filename ftype : String)
  | invalidDimensions (count : ℕ)
  | invalidImages (count : ℕ)
  | loadError
deriving DecidableEq

/-- One file's pass through the type/size/extension filter (App.tsx lines
719-737): declared content type must be an `ACCEPTED_TYPES` key; an
accepted-type file over `MAX_FILE_SIZE` gets a per-file size notice; an
accepted-type file whose extension is not on its type's list gets a per-file
mismatch notice. Returns whether the file is kept and the notices pushed. -/
def typeFilterFile (f : FileCand) : Bool × List Msg :=
  match ACCEPTED_TYPES f.type with
  | none => (false, [])
  | some acceptedExtensions =>
    if MAX_FILE_SIZE < f.size then (false, [Msg.fileSize f.name])
    else if acceptedExtensions.contains ("." ++ getFileExtension f.name) then (true, [])
    else (false, [Msg.mimeMismatch f.name f.type])

/-- The files kept by the type/size/extension filter, in order. -/
def typeFilterKept (files : List FileCand) : List FileCand :=
  files.filter fun f => (typeFilterFile f).1

/-- The per-file notices pushed by the type/size/extension filter, in
iteration order. -/
def typeFilterMsgs (files : List FileCand) : List Msg :=
  files.flatMap fun f => (typeFilterFile f).2

/-- The batch body of `processFiles` (App.tsx lines 702-828) on the captured
session `images` and the dropped `files`; `now` stands for `Date.now()` at
admission. Returns the new session list and the batch's notices in push
order. Stages: capacity check, type/size/extension filter, duplicate filter
against the session's `existingFilenames`, capacity truncation, then
sequential validation with incremental appends. -/
def processFiles (images : List ImageRec) (files : List FileCand) (now : ℕ) :
    List ImageRec × List Msg :=
  if files.length = 0 then (images, [])
  else
    -- `Math.max(0, 10 - images.length)` is ℕ subtraction
    let remainingSlots : ℕ := 10 - images.length
    if remainingSlots = 0 then (images, [Msg.limitAtCapacity files.length])
    else
      let imageFiles := typeFilterKept files
      let invalidTypeCount := files.length - imageFiles.length
      let msgs1 := typeFilterMsgs files ++
        (if 0 < invalidTypeCount then [Msg.invalidType invalidTypeCount] else [])
      if 0 < invalidTypeCount ∧ imageFiles.length = 0 then (images, msgs1)
      else
        let existingFilenames := images.map fun img => img.file.name
        let nonDuplicateFiles :=
          imageFiles.filter fun f => decide (f.name ∉ existingFilenames)
        let duplicateCount := imageFiles.length - nonDuplicateFiles.length
        let msgs2 := msgs1 ++
          (if 0 < duplicateCount then [Msg.duplicates duplicateCount] else [])
        if 0 < duplicateCount ∧ nonDuplicateFiles.length = 0 then (images, msgs2)
        else
          let filesToProcess := nonDuplicateFiles.take remainingSlots
          let ignoredDueToLimit := nonDuplicateFiles.length - remainingSlots
          if filesToProcess.length = 0 then
            (images, msgs2 ++
              (if 0 < ignoredDueToLimit then [Msg.limitAdded 0 ignoredDueToLimit] else []))
          else
            -- the validation loop: admitted files are appended in order
            let invalidSizeCount := (filesToProcess.filter fun f =>
              decide (f.validation = Validation.tooSmall ∨
                f.validation = Validation.tooLarge)).length
            let invalidImageCount := (filesToProcess.filter fun f =>
              decide (f.validation = Validation.corrupt)).length
            let newImages := images ++
              ((filesToProcess.filter fun f =>
                decide (f.validation = Validation.valid)).map fun f => mkNewImage f now)
            (newImages,
              msgs2 ++
                (if 0 < invalidSizeCount then [Msg.invalidDimensions invalidSizeCount] else []) ++
                (if 0 < invalidImageCount then [Msg.invalidImages invalidImageCount] else []) ++
                (if 0 < ignoredDueToLimit then
                  [Msg.limitAdded (filesToProcess.length - invalidImageCount) ignoredDueToLimit]
                else []))

/-- A dotless filename's extracted extension is empty: `lastIndexOf` returns
`-1`, `(-2) >>> 0 + 2 = 2^32`, and the slice from there is empty. -/
theorem getFileExtension_eq_empty_of_no_dot (filename : String)
    (hdot : '.' ∉ filename.toList) (hlen : filename.toList.length ≤ 2 ^ 32) :
    getFileExtension filename = "" := by
  have hlast : jsLastIndexOf filename '.' = -1 := by
    simp only [jsLastIndexOf]
    rw [if_neg hdot]
  simp only [getFileExtension, hlast]
  have h2 : ((-1 - 1 : ℤ).emod (2 ^ 32)).toNat + 2 = 2 ^ 32 := by decide
  rw [h2, List.drop_eq_nil_of_le hlen]
  rfl

/-- C10: a candidate whose filename contains no `'.'` (of indexable JS string
length) is rejected by the extension-match stage of the type filter whenever
its declared content type is in the accepted set and it passed the size
check, because its extracted extension is empty and `"."` is never an
accepted extension. -/
theorem dotless_file_rejected_as_mismatch (f : FileCand)
    (htype : (ACCEPTED_TYPES f.type).isSome)
    (hdot : '.' ∉ f.name.toList)
    (hlen : f.name.toList.length ≤ 2 ^ 32)
    (hsize : f.size ≤ MAX_FILE_SIZE) :
    typeFilterFile f = (false, [Msg.mimeMismatch f.name f.type]) := by
  have hext : getFileExtension f.name = "" :=
    getFileExtension_eq_empty_of_no_dot f.name hdot hlen
  have hns : ¬ MAX_FILE_SIZE < f.size := not_lt.mpr hsize
  unfold typeFilterFile
  unfold ACCEPTED_TYPES at htype ⊢
  split_ifs at htype ⊢ <;>
    simp_all [hext, hns]

/-- Witness for `dotless_file_rejected_as_mismatch`: a small `image/png` file
named `photo`. -/
theorem dotless_file_rejected_as_mismatch_case :
    ((ACCEPTED_TYPES "image/png").isSome ∧ '.' ∉ "photo".toList ∧
        "photo".toList.length ≤ 2 ^ 32 ∧ (0 : ℕ) ≤ MAX_FILE_SIZE) ∧
      typeFilterFile ⟨"photo", "image/png", 0, Validation.valid⟩ =
        (false, [Msg.mimeMismatch "photo" "image/png"]) :=
  ⟨⟨by decide, by decide, by decide, by decide⟩,
    dotless_file_rejected_as_mismatch ⟨"photo", "image/png", 0, Validation.valid⟩
      (by decide) (by decide) (by decide) (by decide)⟩

/-- A valid small PNG candidate used as a concrete batch member. -/
def fDup : FileCand := ⟨"a.png", "image/png", 0, Validation.valid⟩

/-- C4 counterexample: dropping the same new filename twice in one batch does
NOT drop the second instance: with an empty session and the batch
`[a.png, a.png]` (both valid), both instances are admitted and no duplicate
notice is emitted — `existingFilenames` is the session set captured before
the batch, so in-batch repeats pass the duplicate filter. -/
theorem inBatch_duplicate_both_admitted :
    (processFiles [] [fDup, fDup] 0).1 =
        [mkNewImage fDup 0, mkNewImage fDup 0] ∧
      (processFiles [] [fDup, fDup] 0).2 = [] := by
  constructor <;> rfl

/-- C4 (amended): the duplicate filter compares only against filenames
already in the Session before the batch. A candidate appearing twice in one
batch, with its name absent from the Session, passes the duplicate filter
twice: if it is otherwise valid and at least two slots are free, both
instances are admitted and no duplicate notice is emitted. -/
theorem processFiles_inBatch_duplicates_admitted (images : List ImageRec)
    (f : FileCand) (now : ℕ)
    (hname : f.name ∉ images.map fun img => img.file.name)
    (hpass : typeFilterFile f = (true, []))
    (hvalid : f.validation = Validation.valid)
    (hcap : images.length + 2 ≤ 10) :
    (processFiles images [f, f] now).1 =
        images ++ [mkNewImage f now, mkNewImage f now] ∧
      ∀ c, Msg.duplicates c ∉ (processFiles images [f, f] now).2 := by
  have hkeep : (typeFilterFile f).1 = true := by rw [hpass]
  have hmsgs : (typeFilterFile f).2 = [] := by rw [hpass]
  have hkept : typeFilterKept [f, f] = [f, f] := by
    simp [typeFilterKept, List.filter, hkeep]
  have htm : typeFilterMsgs [f, f] = [] := by
    simp [typeFilterMsgs, hmsgs]
  have hslots : ¬ (10 - images.length = 0) := by omega
  have htake : List.take (10 - images.length) [f, f] = [f, f] :=
    List.take_of_length_le (by simp only [List.length_cons, List.length_nil]; omega)
  have hdec : decide (f.name ∉ images.map fun img => img.file.name) = true :=
    decide_eq_true hname
  have hfilterNew :
      List.filter (fun g => decide (g.name ∉ images.map fun img => img.file.name)) [f, f] =
        [f, f] := by
    simp only [List.filter, hdec]
  have hvalidFilter :
      List.filter (fun g => decide (g.validation = Validation.valid)) [f, f] = [f, f] := by
    simp [List.filter, hvalid]
  have hinvSize :
      List.filter (fun g => decide (g.validation = Validation.tooSmall ∨
        g.validation = Validation.tooLarge)) [f, f] = [] := by
    simp [List.filter, hvalid]
  have hinvCorrupt :
      List.filter (fun g => decide (g.validation = Validation.corrupt)) [f, f] = [] := by
    simp [List.filter, hvalid]
  have hresult : processFiles images [f, f] now =
      (images ++ [mkNewImage f now, mkNewImage f now], []) := by
    simp only [processFiles, hkept, htm, hfilterNew, htake, hvalidFilter, hinvSize, hinvCorrupt,
      List.length_cons, List.length_nil, List.nil_append, List.map_cons, List.map_nil]
    rw [if_neg (by omega), if_neg hslots, if_neg (by omega), if_neg (by omega),
      if_neg (by omega)]
    have hig : ¬ 0 < 2 - (10 - images.length) := by omega
    simp [hig]
  rw [hresult]
  exact ⟨rfl, fun c => List.not_mem_nil _⟩

/-- Witness for `processFiles_inBatch_duplicates_admitted` on the empty
session and the small valid PNG `a.png`. -/
theorem processFiles_inBatch_duplicates_admitted_case :
    (fDup.name ∉ ([] : List ImageRec).map (fun img => img.file.name) ∧
        typeFilterFile fDup = (true, []) ∧
        fDup.validation = Validation.valid ∧
        ([] : List ImageRec).length + 2 ≤ 10) ∧
      ((processFiles [] [fDup, fDup] 7).1 =
          [] ++ [mkNewImage fDup 7, mkNewImage fDup 7] ∧
        ∀ c, Msg.duplicates c ∉ (processFiles [] [fDup, fDup] 7).2) :=
  ⟨⟨by decide, by decide, by decide, by decide⟩,
    processFiles_inBatch_duplicates_admitted [] fDup 7
      (by decide) (by decide) (by decide) (by decide)⟩

/-- Branch analysis of `processFiles`: the resulting session is either the
input session unchanged or the input session with the validated admitted
prefix appended. -/
theorem processFiles_fst_cases (images : List ImageRec)
    (files : List FileCand) (now : ℕ) :
    (processFiles images files now).1 = images ∨
      (processFiles images files now).1 = images ++
        (((((typeFilterKept files).filter fun f =>
            decide (f.name ∉ images.map fun img => img.file.name)).take
            (10 - images.length)).filter fun f =>
            decide (f.validation = Validation.valid)).map fun f => mkNewImage f now) := by
  simp only [processFiles]
  split
  · exact Or.inl rfl
  split
  · exact Or.inl rfl
  split
  · exact Or.inl rfl
  split
  · exact Or.inl rfl
  split
  · exact Or.inl rfl
  · exact Or.inr rfl

/-- C5: one admission batch never removes a session record (the result is the
input session plus appended admissions), and if the session respected the
10-image capacity before the batch it does after. -/
theorem processFiles_appendOnly_capacity (images : List ImageRec)
    (files : List FileCand) (now : ℕ) :
    (∃ appended, (processFiles images files now).1 = images ++ appended) ∧
      (images.length ≤ 10 → (processFiles images files now).1.length ≤ 10) := by
  rcases processFiles_fst_cases images files now with h | h
  · exact ⟨⟨[], by simp [h]⟩, fun hle => by simpa [h]⟩
  · refine ⟨⟨_, h⟩, fun hle => ?_⟩
    have h1 := List.length_filter_le
      (fun f => decide (f.validation = Validation.valid))
      ((((typeFilterKept files).filter fun f =>
        decide (f.name ∉ images.map fun img => img.file.name)).take
        (10 - images.length)))
    have h2 := List.length_take_le (10 - images.length)
      ((typeFilterKept files).filter fun f =>
        decide (f.name ∉ images.map fun img => img.file.name))
    rw [h]
    simp only [List.length_append, List.length_map]
    omega

/-- Witness for `processFiles_appendOnly_capacity` on the empty session and
one valid file (the capacity conjunct's hypothesis discharged at
`images = []`). -/
theorem processFiles_appendOnly_capacity_case :
    (∃ appended, (processFiles [] [fDup] 3).1 = [] ++ appended) ∧
      (processFiles [] [fDup] 3).1.length ≤ 10 :=
  ⟨(processFiles_appendOnly_capacity [] [fDup] 3).1,
    (processFiles_appendOnly_capacity [] [fDup] 3).2 (by decide)⟩

/-! ## Commit-level numeric field edits (`handleNumericChange`,
App.tsx lines 873-939) -/

/-- Cropper `Data`: the crop surface's rectangle, image-space JS numbers. -/
structure CropData where
  x : ℚ
  y : ℚ
  width : ℚ
  height : ℚ
deriving DecidableEq

/-- Cropper `ContainerData`: the crop surface's container extents. -/
structure ContainerData where
  width : ℚ
  height : ℚ
deriving DecidableEq

/-- The `isComplete = true` path of `handleNumericChange`: cap the entered
value at `CROP_SIZE.MAX` (9999); for the `width`/`height` keys only, convert
it to image space with `convertToActualSize`; clamp per axis against the
image bounds and the opposite corner; return the rectangle pushed into the
crop surface via `cropper.setData`. `currentData`, `canvasData` and
`containerData` are the cropper reads (`getData`, `getCanvasData`,
`getContainerData`); `imageWidth`/`imageHeight` are the canvas natural
extents. -/
def handleNumericChangeComplete (key : String) (value : ℚ)
    (currentData : CropData) (canvasData : CanvasData)
    (containerData : ContainerData) : CropData :=
  let num0 : ℚ := min value 9999
  let imageWidth := canvasData.naturalWidth
  let imageHeight := canvasData.naturalHeight
  let num : ℚ :=
    if ["width", "height"].contains key then
      ((convertToActualSize num0
          (if key = "width" then imageWidth else imageHeight)
          (if key = "width" then containerData.width else containerData.height) : ℤ) : ℚ)
    else num0
  if key = "x" then
    { currentData with x := max 0 (min (imageWidth - currentData.width) num) }
  else if key = "y" then
    { currentData with y := max 0 (min (imageHeight - currentData.height) num) }
  else if key = "width" then
    { currentData with width := max 1 (min (imageWidth - currentData.x) num) }
  else if key = "height" then
    { currentData with height := max 1 (min (imageHeight - currentData.y) num) }
  else currentData

/-- Modelled from the spec: the claimed commit-level edit behavior in which
the entered display value is converted to image space for *all four* fields
(width-axis extents for `x`/`width`, height-axis extents for `y`/`height`)
before the same per-axis clamping. Used only to compare against the code's
`handleNumericChangeComplete`. -/
def handleNumericChangeClaimed (key : String) (value : ℚ)
    (currentData : CropData) (canvasData : CanvasData)
    (containerData : ContainerData) : CropData :=
  let num0 : ℚ := min value 9999
  let imageWidth := canvasData.naturalWidth
  let imageHeight := canvasData.naturalHeight
  let num : ℚ :=
    ((convertToActualSize num0
        (if key = "x" ∨ key = "width" then imageWidth else imageHeight)
        (if key = "x" ∨ key = "width" then containerData.width
          else containerData.height) : ℤ) : ℚ)
  if key = "x" then
    { currentData with x := max 0 (min (imageWidth - currentData.width) num) }
  else if key = "y" then
    { currentData with y := max 0 (min (imageHeight - currentData.height) num) }
  else if key = "width" then
    { currentData with width := max 1 (min (imageWidth - currentData.x) num) }
  else if key = "height" then
    { currentData with height := max 1 (min (imageHeight - currentData.y) num) }
  else currentData

/-- The four commit-level edits in closed form: `x`/`y` clamp the capped
entered value directly (no display→image conversion); `width`/`height`
convert it through `convertToActualSize` first. -/
theorem handleNumericChangeComplete_eq (value : ℚ) (cd : CropData)
    (cv : CanvasData) (ct : ContainerData) :
    handleNumericChangeComplete "x" value cd cv ct =
        { cd with x := max 0 (min (cv.naturalWidth - cd.width) (min value 9999)) } ∧
      handleNumericChangeComplete "y" value cd cv ct =
        { cd with y := max 0 (min (cv.naturalHeight - cd.height) (min value 9999)) } ∧
      handleNumericChangeComplete "width" value cd cv ct =
        { cd with width := max 1 (min (cv.naturalWidth - cd.x)
            ((convertToActualSize (min value 9999) cv.naturalWidth ct.width : ℤ) : ℚ)) } ∧
      handleNumericChangeComplete "height" value cd cv ct =
        { cd with height := max 1 (min (cv.naturalHeight - cd.y)
            ((convertToActualSize (min value 9999) cv.naturalHeight ct.height : ℤ) : ℚ)) } :=
  ⟨rfl, rfl, rfl, rfl⟩

/-- A concrete canvas: 1000 × 1000 image shown in a 500 × 500 container. -/
def cvEx : CanvasData := ⟨0, 0, 500, 500, 1000, 1000⟩

/-- C6 counterexample: committing `x = 100` with a 1000px-wide image in a
500px container pushes `x = 100` into the crop surface — the entered value
is NOT converted to image space (conversion would give `x = 200`), so the
claim that all four fields are converted before clamping fails on the `x`
(and `y`) field. -/
theorem numericEdit_x_not_converted :
    handleNumericChangeComplete "x" 100 ⟨0, 0, 100, 100⟩ cvEx ⟨500, 500⟩ ≠
      handleNumericChangeClaimed "x" 100 ⟨0, 0, 100, 100⟩ cvEx ⟨500, 500⟩ := by
  have h1 : handleNumericChangeComplete "x" 100 ⟨0, 0, 100, 100⟩ cvEx ⟨500, 500⟩ =
      ⟨100, 0, 100, 100⟩ := by
    have h := (handleNumericChangeComplete_eq 100 ⟨0, 0, 100, 100⟩ cvEx ⟨500, 500⟩).1
    rw [h]
    norm_num [cvEx]
  have h2 : handleNumericChangeClaimed "x" 100 ⟨0, 0, 100, 100⟩ cvEx ⟨500, 500⟩ =
      ⟨200, 0, 100, 100⟩ := by
    norm_num [handleNumericChangeClaimed, cvEx, convertToActualSize, jsRound]
  rw [h1, h2]
  decide

/-- C6 (amended): at commit level only the `width` and `height` edits convert
the entered display value to image space (via `convertToActualSize` with the
matching natural extent and container extent) before clamping; the `x` and
`y` edits clamp the entered value as typed, without conversion. -/
theorem numericEdit_converts_width_height_only (value : ℚ) (cd : CropData)
    (cv : CanvasData) (ct : ContainerData) :
    handleNumericChangeComplete "x" value cd cv ct =
        { cd with x := max 0 (min (cv.naturalWidth - cd.width) (min value 9999)) } ∧
      handleNumericChangeComplete "y" value cd cv ct =
        { cd with y := max 0 (min (cv.naturalHeight - cd.height) (min value 9999)) } ∧
      handleNumericChangeComplete "width" value cd cv ct =
        { cd with width := max 1 (min (cv.naturalWidth - cd.x)
            ((convertToActualSize (min value 9999) cv.naturalWidth ct.width : ℤ) : ℚ)) } ∧
      handleNumericChangeComplete "height" value cd cv ct =
        { cd with height := max 1 (min (cv.naturalHeight - cd.y)
            ((convertToActualSize (min value 9999) cv.naturalHeight ct.height : ℤ) : ℚ)) } :=
  handleNumericChangeComplete_eq value cd cv ct

/-- C7: each commit-level edit clamps into the claimed per-axis range —
`x` into `[0, imageWidth − width]`, `y` into `[0, imageHeight − height]`,
`width` into `[1, imageWidth − x]`, `height` into `[1, imageHeight − y]`
(whenever those ranges are nonempty) — and in particular committing width 0
with `x = 0` and image extent 1000 yields width 1, not 0. -/
theorem numericEdit_clamp_ranges (value : ℚ) (cd : CropData)
    (cv : CanvasData) (ct : ContainerData)
    (hxr : cd.width ≤ cv.naturalWidth) (hyr : cd.height ≤ cv.naturalHeight)
    (hwr : cd.x + 1 ≤ cv.naturalWidth) (hhr : cd.y + 1 ≤ cv.naturalHeight) :
    (0 ≤ (handleNumericChangeComplete "x" value cd cv ct).x ∧
        (handleNumericChangeComplete "x" value cd cv ct).x ≤ cv.naturalWidth - cd.width) ∧
      (0 ≤ (handleNumericChangeComplete "y" value cd cv ct).y ∧
        (handleNumericChangeComplete "y" value cd cv ct).y ≤
          cv.naturalHeight - cd.height) ∧
      (1 ≤ (handleNumericChangeComplete "width" value cd cv ct).width ∧
        (handleNumericChangeComplete "width" value cd cv ct).width ≤
          cv.naturalWidth - cd.x) ∧
      (1 ≤ (handleNumericChangeComplete "height" value cd cv ct).height ∧
        (handleNumericChangeComplete "height" value cd cv ct).height ≤
          cv.naturalHeight - cd.y) ∧
      (handleNumericChangeComplete "width" 0 ⟨0, 0, 500, 500⟩ cvEx ⟨500, 500⟩).width = 1 := by
  obtain ⟨hx, hy, hw, hh⟩ := handleNumericChangeComplete_eq value cd cv ct
  refine ⟨?_, ?_, ?_, ?_, ?_⟩
  · rw [hx]
    exact ⟨le_max_left _ _, max_le (by linarith) (min_le_left _ _)⟩
  · rw [hy]
    exact ⟨le_max_left _ _, max_le (by linarith) (min_le_left _ _)⟩
  · rw [hw]
    exact ⟨le_max_left _ _, max_le (by linarith) (min_le_left _ _)⟩
  · rw [hh]
    exact ⟨le_max_left _ _, max_le (by linarith) (min_le_left _ _)⟩
  · have h := (handleNumericChangeComplete_eq 0 ⟨0, 0, 500, 500⟩ cvEx ⟨500, 500⟩).2.2.1
    rw [h]
    norm_num [cvEx, convertToActualSize, jsRound]

/-- Witness for `numericEdit_clamp_ranges` at a 1000 × 1000 image in a
500 × 500 container with current rectangle `(0, 0, 500, 500)`. -/
theorem numericEdit_clamp_ranges_case :
    ((⟨0, 0, 500, 500⟩ : CropData).width ≤ cvEx.naturalWidth ∧
        (⟨0, 0, 500, 500⟩ : CropData).height ≤ cvEx.naturalHeight ∧
        (⟨0, 0, 500, 500⟩ : CropData).x + 1 ≤ cvEx.naturalWidth ∧
        (⟨0, 0, 500, 500⟩ : CropData).y + 1 ≤ cvEx.naturalHeight) ∧
      (0 ≤ (handleNumericChangeComplete "x" 50 ⟨0, 0, 500, 500⟩ cvEx ⟨500, 500⟩).x ∧
        (handleNumericChangeComplete "x" 50 ⟨0, 0, 500, 500⟩ cvEx ⟨500, 500⟩).x ≤
          cvEx.naturalWidth - (⟨0, 0, 500, 500⟩ : CropData).width) :=
  ⟨⟨by norm_num [cvEx], by norm_num [cvEx], by norm_num [cvEx], by norm_num [cvEx]⟩,
    (numericEdit_clamp_ranges 50 ⟨0, 0, 500, 500⟩ cvEx ⟨500, 500⟩
      (by norm_num [cvEx]) (by norm_num [cvEx]) (by norm_num [cvEx])
      (by norm_num [cvEx])).1⟩

/-! ## Crop commit and cancel (`handleCrop` lines 1122-1245,
`handleCancel` lines 1248-1302) -/

/-- The React state `handleCrop`/`handleCancel` read and write. The source
fields `selectedAspectRatio` and the settings' `aspectRatio` are named
`selectedAspect` / `aspect` here. -/
structure AppState where
  images : List ImageRec
  globalCropSettings : Option CropSettingsQ
  activeCropSettings : CropSettingsQ
  isPerImageCrop : Bool
  saveOnCancel : Bool
  currentImage : Option ImageRec
  initialCropSettings : Option CropSettingsQ
  selectedAspect : String
  originalDimensions : Option Dims
deriving DecidableEq

/-- The `newCropSettings` a commit builds (App.tsx lines 1136-1142): the
cropper rectangle as-is plus the active aspect ratio. -/
def commitSettings (st : AppState) (data : CropData) : CropSettingsQ :=
  { x := data.x
    y := data.y
    width := data.width
    height := data.height
    aspect := st.activeCropSettings.aspect }

/-- The integer-rounded rectangle appended to `cropHistory` on commit. -/
def roundedRect (data : CropData) : CropDimensionsZ :=
  { x := jsRound data.x
    y := jsRound data.y
    width := jsRound data.width
    height := jsRound data.height }

/-- The external-capability reads and outcomes of one `handleCrop` run:
whether `canvas.toBlob` produced `null`, the cropper's `getData()` and
`getCanvasData()`, whether `window.showSaveFilePicker` exists, and whether
the save/download step threw (the `catch` path, which the source comments
also use for a cancelled save). -/
structure CropInputs where
  blobNone : Bool
  data : CropData
  canvasData : CanvasData
  hasSavePicker : Bool
  saveThrows : Bool
deriving DecidableEq

/-- Source `handleCrop`: on the File System API branch, commit with canvas
geometry stored; on the anchor-download fallback branch, commit without it;
on a thrown save, persist only the attempted settings (image `cropSettings`
and the global store) and leave `cropped`/`cropHistory` alone. In every
branch `setGlobalCropSettings(newCropSettings)` runs regardless of the
persistence policy. -/
def handleCrop (st : AppState) (inp : CropInputs) : AppState :=
  match st.currentImage with
  | none => st
  | some cur =>
    if inp.blobNone then st
    else
      let newCropSettings := commitSettings st inp.data
      if inp.saveThrows then
        { st with
            globalCropSettings := some newCropSettings
            images := st.images.map fun img =>
              if img.id = cur.id then { img with cropSettings := some newCropSettings }
              else img }
      else if inp.hasSavePicker then
        { st with
            globalCropSettings := some newCropSettings
            images := st.images.map fun img =>
              if img.id = cur.id then
                { img with
                    cropped := true
                    cropSettings := some newCropSettings
                    canvasData := some inp.canvasData
                    cropHistory := img.cropHistory ++ [roundedRect inp.data] }
              else img }
      else
        { st with
            globalCropSettings := some newCropSettings
            images := st.images.map fun img =>
              if img.id = cur.id then
                { img with
                    cropped := true
                    cropSettings := some newCropSettings
                    cropHistory := img.cropHistory ++ [roundedRect inp.data] }
              else img }

/-- C1: on every successful commit (no thrown save — the save completed or
its dialog was cancelled), whichever save branch ran, the target image gets
the integer-rounded rectangle appended to `cropHistory` (length +1), its
`cropped` flag set, and `GlobalCropSettings` is set to the committed
settings unconditionally — the persistence policy `st.isPerImageCrop` is
arbitrary here, so this holds in per-image mode too. -/
theorem handleCrop_success_commits (st : AppState) (inp : CropInputs)
    (cur : ImageRec) (hcur : st.currentImage = some cur)
    (hblob : inp.blobNone = false) (hsave : inp.saveThrows = false) :
    (handleCrop st inp).globalCropSettings = some (commitSettings st inp.data) ∧
      (handleCrop st inp).images.length = st.images.length ∧
      ∀ (i : ℕ) (img img' : ImageRec), st.images[i]? = some img →
        (handleCrop st inp).images[i]? = some img' →
        img.id = cur.id →
        img'.cropped = true ∧
          img'.cropHistory = img.cropHistory ++ [roundedRect inp.data] ∧
          img'.cropHistory.length = img.cropHistory.length + 1 := by
  cases hpick : inp.hasSavePicker <;>
  · refine ⟨?_, ?_, fun i img img' h1 h2 hid => ?_⟩
    · simp [handleCrop, hcur, hblob, hsave, hpick]
    · simp [handleCrop, hcur, hblob, hsave, hpick]
    · simp only [handleCrop, hcur, hblob, hsave, hpick, Bool.false_eq_true, if_false, if_true,
        ite_true, ite_false, List.getElem?_map] at h2
      rw [h1, Option.map_some'] at h2
      rw [if_pos hid] at h2
      cases h2
      simp

/-- A concrete session record for the commit/cancel witnesses. -/
def imgC1 : ImageRec := ⟨"a.png-0", fDup, false, [], none, none⟩

/-- A concrete app state editing `imgC1` in per-image mode. -/
def stC1 : AppState :=
  ⟨[imgC1], none, ⟨0, 0, 0, 0, 0⟩, true, false, some imgC1,
    some ⟨0, 0, 250, 250, 0⟩, "free", some ⟨1000, 1000⟩⟩

/-- Concrete successful-commit inputs (fallback download branch). -/
def inpC1 : CropInputs := ⟨false, ⟨1, 2, 3, 4⟩, cvEx, false, false⟩

/-- Concrete failed-save commit inputs. -/
def inpC2 : CropInputs := ⟨false, ⟨1, 2, 3, 4⟩, cvEx, true, true⟩

/-- Witness for `handleCrop_success_commits`: a one-image state committing a
rectangle through the fallback download branch. -/
theorem handleCrop_success_commits_case :
    ((stC1 : AppState).currentImage = some imgC1 ∧
        (inpC1 : CropInputs).blobNone = false ∧ inpC1.saveThrows = false) ∧
      ((handleCrop stC1 inpC1).globalCropSettings =
          some (commitSettings stC1 inpC1.data) ∧
        (handleCrop stC1 inpC1).images.length = stC1.images.length ∧
        ∀ (i : ℕ) (img img' : ImageRec), stC1.images[i]? = some img →
          (handleCrop stC1 inpC1).images[i]? = some img' →
          img.id = imgC1.id →
          img'.cropped = true ∧
            img'.cropHistory = img.cropHistory ++ [roundedRect inpC1.data] ∧
            img'.cropHistory.length = img.cropHistory.length + 1) :=
  ⟨⟨rfl, rfl, rfl⟩, handleCrop_success_commits stC1 inpC1 imgC1 rfl rfl rfl⟩

/-- C2: when the save step throws, every image keeps its `cropped` flag and
`cropHistory` unchanged, while the target image's `cropSettings` — and the
global store — are set to the attempted settings. -/
theorem handleCrop_error_persists_settings_only (st : AppState) (inp : CropInputs)
    (cur : ImageRec) (hcur : st.currentImage = some cur)
    (hblob : inp.blobNone = false) (hsave : inp.saveThrows = true) :
    (handleCrop st inp).globalCropSettings = some (commitSettings st inp.data) ∧
      (handleCrop st inp).images.length = st.images.length ∧
      ∀ (i : ℕ) (img img' : ImageRec), st.images[i]? = some img →
        (handleCrop st inp).images[i]? = some img' →
        (img'.cropped = img.cropped ∧ img'.cropHistory = img.cropHistory) ∧
          (img.id = cur.id → img'.cropSettings = some (commitSettings st inp.data)) := by
  refine ⟨?_, ?_, fun i img img' h1 h2 => ?_⟩
  · simp [handleCrop, hcur, hblob, hsave]
  · simp [handleCrop, hcur, hblob, hsave]
  · simp only [handleCrop, hcur, hblob, hsave, Bool.false_eq_true, if_false, if_true,
      ite_true, ite_false, List.getElem?_map] at h2
    rw [h1, Option.map_some'] at h2
    by_cases hid : img.id = cur.id
    · rw [if_pos hid] at h2
      cases h2
      simp [hid]
    · rw [if_neg hid] at h2
      cases h2
      simp [hid]

/-- Witness for `handleCrop_error_persists_settings_only` on the concrete
one-image state with a thrown save. -/
theorem handleCrop_error_persists_settings_only_case :
    (stC1.currentImage = some imgC1 ∧ inpC2.blobNone = false ∧
        inpC2.saveThrows = true) ∧
      ((handleCrop stC1 inpC2).globalCropSettings =
          some (commitSettings stC1 inpC2.data) ∧
        (handleCrop stC1 inpC2).images.length = stC1.images.length ∧
        ∀ (i : ℕ) (img img' : ImageRec), stC1.images[i]? = some img →
          (handleCrop stC1 inpC2).images[i]? = some img' →
          (img'.cropped = img.cropped ∧ img'.cropHistory = img.cropHistory) ∧
            (img.id = imgC1.id →
              img'.cropSettings = some (commitSettings stC1 inpC2.data))) :=
  ⟨⟨rfl, rfl, rfl⟩, handleCrop_error_persists_settings_only stC1 inpC2 imgC1 rfl rfl rfl⟩

/-- The external-capability reads of one `handleCancel` run: whether
`cropperRef.current?.cropper` is available, and its `getData()` /
`getCanvasData()`. -/
structure CancelInputs where
  cropperPresent : Bool
  data : CropData
  canvasData : CanvasData
deriving DecidableEq

/-- Source `handleCancel`: inside the `cropper && currentImage &&
initialCropSettings` guard, with "save on cancel" enabled persist the
current rectangle (aspect from the selected-aspect selector) to the active
store — per-image: the target's `cropSettings` plus canvas geometry; global:
`GlobalCropSettings`; with it disabled, per-image mode clears the target's
stored settings and canvas geometry and global mode touches no store. The
source then resets the checkbox and selector when "save on cancel" is
disabled. Neither path touches `cropped` or `cropHistory`. -/
def handleCancel (st : AppState) (inp : CancelInputs) : AppState :=
  match st.currentImage, st.initialCropSettings with
  | some cur, some _ =>
    if inp.cropperPresent then
      let st1 :=
        if st.saveOnCancel then
          let newCropSettings : CropSettingsQ :=
            { x := inp.data.x
              y := inp.data.y
              width := inp.data.width
              height := inp.data.height
              aspect := getAspectRatioFromSelection st.selectedAspect st.originalDimensions }
          if st.isPerImageCrop then
            { st with images := st.images.map fun img =>
                if img.id = cur.id then
                  { img with
                      cropSettings := some newCropSettings
                      canvasData := some inp.canvasData }
                else img }
          else { st with globalCropSettings := some newCropSettings }
        else if st.isPerImageCrop then
          { st with images := st.images.map fun img =>
              if img.id = cur.id then
                { img with cropSettings := none, canvasData := none }
              else img }
        else st
      if st.saveOnCancel then st1
      else { st1 with saveOnCancel := false, selectedAspect := "free" }
    else st
  | _, _ => st

/-- C8: cancelling with "save on cancel" disabled never touches
`GlobalCropSettings`, never appends `cropHistory` and never sets `cropped`;
in per-image mode it clears the target image's stored `cropSettings` and
`canvasData` entirely (other images untouched), and in global mode it leaves
every image record unchanged. -/
theorem handleCancel_noSave_clears_perImage_only (st : AppState)
    (inp : CancelInputs) (cur : ImageRec) (ics : CropSettingsQ)
    (hcur : st.currentImage = some cur) (hinit : st.initialCropSettings = some ics)
    (hpres : inp.cropperPresent = true) (hsoc : st.saveOnCancel = false) :
    (handleCancel st inp).globalCropSettings = st.globalCropSettings ∧
      (handleCancel st inp).images.length = st.images.length ∧
      (∀ (i : ℕ) (img img' : ImageRec), st.images[i]? = some img →
        (handleCancel st inp).images[i]? = some img' →
        img'.cropHistory = img.cropHistory ∧ img'.cropped = img.cropped) ∧
      (st.isPerImageCrop = true →
        ∀ (i : ℕ) (img img' : ImageRec), st.images[i]? = some img →
          (handleCancel st inp).images[i]? = some img' →
          (img.id = cur.id → img'.cropSettings = none ∧ img'.canvasData = none) ∧
            (img.id ≠ cur.id → img' = img)) ∧
      (st.isPerImageCrop = false → (handleCancel st inp).images = st.images) := by
  cases hper : st.isPerImageCrop
  · -- global mode: nothing cleared
    have hres : handleCancel st inp =
        { st with saveOnCancel := false, selectedAspect := "free" } := by
      simp [handleCancel, hcur, hinit, hpres, hsoc, hper]
    rw [hres]
    refine ⟨rfl, rfl, fun i img img' h1 h2 => ?_, fun hcontra => by simp at hcontra,
      fun _ => rfl⟩
    rw [h1] at h2
    cases h2
    exact ⟨rfl, rfl⟩
  · -- per-image mode: the target's stored settings and canvas data cleared
    have hres : handleCancel st inp =
        { st with
            saveOnCancel := false
            selectedAspect := "free"
            images := st.images.map fun img =>
              if img.id = cur.id then
                { img with cropSettings := none, canvasData := none }
              else img } := by
      simp [handleCancel, hcur, hinit, hpres, hsoc, hper]
    rw [hres]
    refine ⟨rfl, by simp, fun i img img' h1 h2 => ?_, fun _ i img img' h1 h2 => ?_,
      fun hcontra => by simp at hcontra⟩
    · simp only [List.getElem?_map] at h2
      rw [h1, Option.map_some'] at h2
      by_cases hid : img.id = cur.id
      · rw [if_pos hid] at h2
        cases h2
        exact ⟨rfl, rfl⟩
      · rw [if_neg hid] at h2
        cases h2
        exact ⟨rfl, rfl⟩
    · simp only [List.getElem?_map] at h2
      rw [h1, Option.map_some'] at h2
      by_cases hid : img.id = cur.id
      · rw [if_pos hid] at h2
        cases h2
        exact ⟨fun _ => ⟨rfl, rfl⟩, fun hne => absurd hid hne⟩
      · rw [if_neg hid] at h2
        cases h2
        exact ⟨fun heq => absurd heq hid, fun _ => rfl⟩

/-- Witness for `handleCancel_noSave_clears_perImage_only` on the concrete
one-image per-image-mode state. -/
theorem handleCancel_noSave_clears_perImage_only_case :
    (stC1.currentImage = some imgC1 ∧
        stC1.initialCropSettings = some ⟨0, 0, 250, 250, 0⟩ ∧
        (⟨true, ⟨1, 2, 3, 4⟩, cvEx⟩ : CancelInputs).cropperPresent = true ∧
        stC1.saveOnCancel = false) ∧
      ((handleCancel stC1 ⟨true, ⟨1, 2, 3, 4⟩, cvEx⟩).globalCropSettings =
          stC1.globalCropSettings ∧
        (handleCancel stC1 ⟨true, ⟨1, 2, 3, 4⟩, cvEx⟩).images.length =
          stC1.images.length) :=
  ⟨⟨rfl, rfl, rfl, rfl⟩,
    ⟨(handleCancel_noSave_clears_perImage_only stC1 ⟨true, ⟨1, 2, 3, 4⟩, cvEx⟩
        imgC1 ⟨0, 0, 250, 250, 0⟩ rfl rfl rfl rfl).1,
      (handleCancel_noSave_clears_perImage_only stC1 ⟨true, ⟨1, 2, 3, 4⟩, cvEx⟩
        imgC1 ⟨0, 0, 250, 250, 0⟩ rfl rfl rfl rfl).2.1⟩⟩

end GroupImageCropper
